import Mathlib

/-!
Verification development for the excel_agent analysis backend.

The definitions below are a shallow embedding of the Python sources:
  - `src/backend/code_generator.py` (`generate_analysis_code`),
  - `src/backend/file_indexer.py` (`_normalize_string`, `_fuzzy_match`,
    `match_excel_file`),
  - `src/backend/column_lineage.py` (`extract_used_columns`),
  - `src/backend/code_runner.py` (`run_analysis_code`),
  - the composition in `src/backend/main.py` (`/analyze/code`, `/analyze`).

Python dictionaries carrying the intent are embedded as the `Intent`
structure; a key that is absent or maps to `None` is `Option.none`.
Python strings are Lean `String`s (the sources only ever handle ASCII
text in the relevant places), floats produced by the matcher's score
division are embedded as exact rationals (every score is `m / n` for
small naturals with a per-intent fixed denominator, so float comparison
`score > best_score` orders them exactly as the rationals do).
-/

/-- Python truthiness of an optional string (`if not s` / `if s`):
`None` and `""` are falsy, every other string is truthy. -/
def truthyStr : Option String → Bool
  | Option.none => false
  | some s => s ≠ ""

/-- Python `"\n".join(lines)`. -/
def joinNL : List String → String
  | [] => ""
  | [l] => l
  | l :: ls => l ++ "\n" ++ joinNL ls

/-- Python `", ".join(parts)`. -/
def joinCommaSpace : List String → String
  | [] => ""
  | [s] => s
  | s :: ss => s ++ ", " ++ joinCommaSpace ss

/-- Python list-char prefix test: `startsWithCh n h` holds when `n` is an
initial segment of `h`. -/
def startsWithCh : List Char → List Char → Bool
  | [], _ => true
  | _ :: _, [] => false
  | x :: xs, y :: ys => x = y && startsWithCh xs ys

/-- Python substring test `n in h` on character lists (contiguous
occurrence; the empty needle occurs in everything). -/
def occursIn : List Char → List Char → Bool
  | n, [] => n.isEmpty
  | n, c :: cs => startsWithCh n (c :: cs) || occursIn n cs

/-- Python `needle in hay` on strings. -/
def strContains (hay needle : String) : Bool :=
  occursIn needle.data hay.data

/-- The intent dictionary handed to the matcher and the code generator
(`analysis_type`, `metric`, `group_by`, `time_field`, `top_n`). A key
that is absent or bound to `None` is `Option.none`; `group_by` absent or
`None` is the empty list (every consumer guards it with truthiness). -/
structure Intent where
  analysis_type : Option String
  metric : Option String
  group_by : List String
  time_field : Option String
  top_n : Option Int
deriving DecidableEq

/-- Line 102 of code_generator.py: `n = top_n if top_n else 10`.
Python truthiness makes `None` and `0` fall back to 10; any other
integer (negative included) is used as is. -/
def topn_effective_n : Option Int → Int
  | some k => if k = 0 then 10 else k
  | Option.none => 10

/-- Lines 25-32 of code_generator.py: the fixed preamble of every
generated program, with the file path interpolated. -/
def header_lines (file_path : String) : List String :=
  ["import pandas as pd",
   "from excel_preprocessor import preprocess_excel",
   "",
   "# Load the preprocessed DataFrame",
   "df = preprocess_excel('" ++ file_path ++ "')",
   ""]

/-- Lines 40-56 of code_generator.py: the `sum`/`avg` branch. -/
def sum_avg_lines (analysis_type : String) (metric : Option String)
    (group_by : List String) : List String :=
  if ¬ truthyStr metric then
    ["# Error: metric is required for sum/avg analysis", "result = None"]
  else
    let m := metric.getD ""
    let agg_func := if analysis_type = "sum" then "sum" else "mean"
    if group_by ≠ [] then
      let gcs := joinCommaSpace (group_by.map (fun c => "'" ++ c ++ "'"))
      ["# Group by " ++ gcs ++ " and calculate " ++ agg_func ++ " of " ++ m,
       "result = df.groupby([" ++ gcs ++ "])['" ++ m ++ "']." ++ agg_func
         ++ "().reset_index()"]
    else
      ["# Calculate " ++ agg_func ++ " of " ++ m,
       "result = pd.DataFrame(\x7b'" ++ m ++ "_" ++ agg_func ++ "': [df['"
         ++ m ++ "']." ++ agg_func ++ "()]\x7d)"]

/-- Lines 58-94 of code_generator.py: the `trend` branch. -/
def trend_lines (metric : Option String) (group_by : List String)
    (time_field : Option String) : List String :=
  if ¬ truthyStr time_field then
    ["# Error: time_field is required for trend analysis", "result = None"]
  else
    let tf := time_field.getD ""
    let base :=
      ["# Convert " ++ tf ++ " to datetime if not already",
       "df['" ++ tf ++ "'] = pd.to_datetime(df['" ++ tf ++ "'], errors='coerce')",
       "",
       "# Set " ++ tf ++ " as index for resampling",
       "df_trend = df.set_index('" ++ tf ++ "')",
       ""]
    let other_group_cols := group_by.filter (fun c => c ≠ tf)
    let rest :=
      if truthyStr metric then
        let m := metric.getD ""
        if other_group_cols ≠ [] then
          let gcs := joinCommaSpace (other_group_cols.map (fun c => "'" ++ c ++ "'"))
          ["# Group by " ++ gcs ++ " and resample by month",
           "result = df_trend.groupby([" ++ gcs ++ "]).resample('M')['" ++ m
             ++ "'].mean().reset_index()"]
        else
          ["# Resample by month and calculate mean of " ++ m,
           "result = df_trend.resample('M')['" ++ m ++ "'].mean().reset_index()"]
      else
        if other_group_cols ≠ [] then
          let gcs := joinCommaSpace (other_group_cols.map (fun c => "'" ++ c ++ "'"))
          ["# Group by " ++ gcs ++ " and resample by month (count)",
           "result = df_trend.groupby([" ++ gcs
             ++ "]).resample('M').size().reset_index(name='count')"]
        else
          ["# Resample by month (count)",
           "result = df_trend.resample('M').size().reset_index(name='count')"]
    base ++ rest

/-- Lines 96-104 of code_generator.py: the `topn` branch. -/
def topn_lines (metric : Option String) (top_n : Option Int) : List String :=
  if ¬ truthyStr metric then
    ["# Error: metric is required for topn analysis", "result = None"]
  else
    let m := metric.getD ""
    let n := topn_effective_n top_n
    ["# Sort by " ++ m ++ " descending and take top " ++ toString n,
     "result = df.nlargest(" ++ toString n ++ ", '" ++ m ++ "')"]

/-- Lines 106-118 of code_generator.py: the `groupby` branch. -/
def groupby_lines (metric : Option String) (group_by : List String) : List String :=
  if group_by ≠ [] then
    let gcs := joinCommaSpace (group_by.map (fun c => "'" ++ c ++ "'"))
    if truthyStr metric then
      let m := metric.getD ""
      ["# Group by " ++ gcs ++ " and aggregate " ++ m,
       "result = df.groupby([" ++ gcs ++ "])['" ++ m
         ++ "'].agg(['count', 'mean', 'sum']).reset_index()"]
    else
      ["# Group by " ++ gcs ++ " and count",
       "result = df.groupby([" ++ gcs ++ "]).size().reset_index(name='count')"]
  else
    ["# No group_by columns specified", "result = df"]

/-- Lines 120-127 of code_generator.py: the `sort` branch. -/
def sort_lines (metric : Option String) : List String :=
  if truthyStr metric then
    let m := metric.getD ""
    ["# Sort by " ++ m ++ " descending",
     "result = df.sort_values('" ++ m ++ "', ascending=False)"]
  else
    ["# No metric specified for sorting", "result = df"]

/-- Embedding of `generate_analysis_code` (code_generator.py, lines 4-134):
builds the Python program text for the given intent, interpolating the
intent's own strings, and joins the lines with newlines. The dispatch
mirrors `intent.get("analysis_type", "groupby")` and the chain of
branches of the source. -/
def generate_analysis_code (file_path : String) (intent : Intent) : String :=
  let analysis_type := intent.analysis_type.getD "groupby"
  let tail :=
    if analysis_type = "sum" ∨ analysis_type = "avg" then
      sum_avg_lines analysis_type intent.metric intent.group_by
    else if analysis_type = "trend" then
      trend_lines intent.metric intent.group_by intent.time_field
    else if analysis_type = "topn" then
      topn_lines intent.metric intent.top_n
    else if analysis_type = "groupby" then
      groupby_lines intent.metric intent.group_by
    else if analysis_type = "sort" then
      sort_lines intent.metric
    else
      ["# Unknown analysis_type: " ++ analysis_type, "result = df"]
  joinNL (header_lines file_path ++ tail)

/-- Embedding of `_normalize_string` (file_indexer.py, lines 82-94):
lowercase, then remove spaces, underscores and hyphens (lowercasing
never produces or consumes one of the removed characters, so mapping
then filtering equals Python's `lower` followed by the three
`replace` calls). -/
def _normalize_string (s : String) : String :=
  String.mk ((s.data.map Char.toLower).filter
    (fun c => !(c == ' ' || c == '_' || c == '-')))

/-- Embedding of `_fuzzy_match` (file_indexer.py, lines 97-124): falsy
target gives no match; first candidate whose normalized form equals the
normalized target wins; otherwise the first candidate related to the
target by substring containment (either direction) of normalized forms. -/
def _fuzzy_match (target : String) (candidates : List String) : Option String :=
  if target = "" then Option.none
  else
    let nt := _normalize_string target
    match candidates.find? (fun c => _normalize_string c == nt) with
    | some c => some c
    | Option.none =>
        candidates.find? (fun c =>
          let nc := _normalize_string c
          occursIn nt.data nc.data || occursIn nc.data nt.data)

/-- The result dictionary of `match_excel_file` (file_indexer.py,
lines 212-217). The float score is embedded as an exact rational. -/
structure MatchResult where
  file_name : Option String
  score : ℚ
  matched_columns : List String
  used_columns : List String
deriving DecidableEq

/-- Lines 150-158 of file_indexer.py: the intent fields to be matched,
as (field_type, field_value) pairs. `metric` and `time_field` are
included when truthy (set and non-empty); every `group_by` entry is
included (the guard `if intent.get("group_by")` only skips an empty or
absent list, whose entries are none). -/
def intentFields (i : Intent) : List (String × String) :=
  (match i.metric with
   | some m => if m ≠ "" then [("metric", m)] else []
   | Option.none => [])
  ++ i.group_by.map (fun c => ("group_by", c))
  ++ (match i.time_field with
      | some t => if t ≠ "" then [("time_field", t)] else []
      | Option.none => [])

/-- Lines 190-200 of file_indexer.py: the loop over the intent fields
for one file, threading the `matches` counter and the `matched_columns`
and `used_columns` accumulators. A `metric` entry is skipped when the
metric was already processed before the loop (`metric_required`). -/
def scanFields (metric_required : Bool) (columns : List String) :
    List (String × String) → Nat × List String × List String →
      Nat × List String × List String
  | [], acc => acc
  | (ft, fv) :: rest, (m, mc, uc) =>
      if ft = "metric" ∧ metric_required then
        scanFields metric_required columns rest (m, mc, uc)
      else
        match _fuzzy_match fv columns with
        | some col => scanFields metric_required columns rest (m + 1, mc ++ [col], uc ++ [fv])
        | Option.none => scanFields metric_required columns rest (m, mc, uc)

/-- Lines 170-200 of file_indexer.py: the body of the per-file loop.
`metric_required` is `intent.get("metric") is not None` (note: not
truthiness — an explicit empty-string metric still makes the metric
required, and then `_fuzzy_match` never matches it, so the file is
skipped). `Option.none` is the `continue` that excludes the file when
the required metric matches no column. -/
def scanFile (i : Intent) (fields : List (String × String))
    (columns : List String) : Option (Nat × List String × List String) :=
  match i.metric with
  | some metric_value =>
      match _fuzzy_match metric_value columns with
      | some matched_metric =>
          some (scanFields true columns fields (1, [matched_metric], [metric_value]))
      | Option.none => Option.none
  | Option.none => some (scanFields false columns fields (0, [], []))

/-- Line 203 of file_indexer.py:
`score = matches / len(intent_fields) if intent_fields else 0.0`. -/
def fileScore (fields : List (String × String)) (nmatches : Nat) : ℚ :=
  if fields.length = 0 then 0 else (nmatches : ℚ) / (fields.length : ℚ)

/-- Lines 169-210 of file_indexer.py: the loop over the index, keeping
the best result; `score > best_score` demands strict improvement, so
the first file reaching the best score wins ties. -/
def matchLoop (i : Intent) (fields : List (String × String)) :
    List (String × List String) → MatchResult → MatchResult
  | [], best => best
  | (fname, columns) :: rest, best =>
      match scanFile i fields columns with
      | Option.none => matchLoop i fields rest best
      | some (m, mc, uc) =>
          let score := fileScore fields m
          if best.score < score then
            matchLoop i fields rest ⟨some fname, score, mc, uc⟩
          else
            matchLoop i fields rest best

/-- Embedding of `match_excel_file` (file_indexer.py, lines 127-217).
The index (a Python dict in insertion order) is a list of
(file_name, columns) pairs. With no intent fields the function returns
the empty result before scanning any file (lines 161-167). -/
def match_excel_file (i : Intent) (index : List (String × List String)) :
    MatchResult :=
  let fields := intentFields i
  if fields = [] then ⟨Option.none, 0, [], []⟩
  else matchLoop i fields index ⟨Option.none, 0, [], []⟩

/-- Line 26 of main.py: `DATA_DIR = "data"`. -/
def DATA_DIR : String := "data"

/-- Model of `os.path.join(DATA_DIR, target_file)` on a POSIX system for
a non-empty relative directory and a plain file name. -/
def pathJoin (d f : String) : String := d ++ "/" ++ f

/-- Lines 193-207 of main.py (`/analyze/code`, identical in `/analyze`,
lines 277-295): the program text produced for an intent — the matcher
picks the target file, and `generate_analysis_code` is called with the
ORIGINAL intent dictionary (the match result's `matched_columns` are
not passed to the generator). This string is what `/analyze` hands to
`run_analysis_code`, which `exec`s it. -/
def pipeline_code (i : Intent) (index : List (String × List String)) : String :=
  match (match_excel_file i index).file_name with
  | some f => generate_analysis_code (pathJoin DATA_DIR f) i
  | Option.none => "# Error: No matching file found for the given question"

/-- Python's `\w` character class, restricted to ASCII (every string the
lineage extractor is applied to in this development is ASCII). -/
def isWordCh (c : Char) : Bool := c.isAlphanum || c == '_'

/-- A single or double quote, as in the regex class `["\']`. -/
def isQuoteCh (c : Char) : Bool := c == '"' || c == '\''

/-- Python's `\s` character class, restricted to ASCII. -/
def isSpaceCh (c : Char) : Bool :=
  c == ' ' || c == '\t' || c == '\n' || c == '\r' || c == '\x0b' || c == '\x0c'

/-- Matching helper: consume the literal `lit` from the front of `l`. -/
def dropLit : List Char → List Char → Option (List Char)
  | [], l => some l
  | _ :: _, [] => Option.none
  | x :: xs, y :: ys => if x = y then dropLit xs ys else Option.none

/-- Matching helper: a quoted run, the regex `["\']([^"\']+)["\']`
(the two quotes need not be the same character); returns the capture
and the rest after the match. -/
def matchQuotedAt (l : List Char) : Option (List Char × List Char) :=
  match l with
  | q :: r =>
      if isQuoteCh q then
        let (cap, r1) := r.span (fun c => !(isQuoteCh c))
        if cap = [] then Option.none
        else
          match r1 with
          | q2 :: r2 => if isQuoteCh q2 then some (cap, r2) else Option.none
          | [] => Option.none
      else Option.none
  | [] => Option.none

/-- Pattern 1 of column_lineage.py, `\w+\[["\']([^"\']+)["\']\]`, as a
match-at-position function: a non-empty word-character run directly
followed by `[`, a quoted run, `]`. The greedy `\w+` and `[^"\']+` runs
cannot backtrack usefully (a shorter word run ends at a word character,
not `[`; a shorter capture ends at a non-quote), so taking the maximal
runs reproduces the regex engine. -/
def matchP1At (l : List Char) : Option (List Char × List Char) :=
  let (w, r1) := l.span isWordCh
  if w = [] then Option.none
  else
    match r1 with
    | '[' :: r2 =>
        match matchQuotedAt r2 with
        | some (cap, r3) =>
            match r3 with
            | ']' :: r4 => some (cap, r4)
            | _ => Option.none
        | Option.none => Option.none
    | _ => Option.none

/-- Pattern 2 of column_lineage.py, `groupby\(\[["\']([^"\']+)["\']\]\)`:
the literal `groupby([`, a quoted run, then `])`. -/
def matchP2At (l : List Char) : Option (List Char × List Char) := do
  let r1 ← dropLit "groupby([".data l
  let (cap, r2) ← matchQuotedAt r1
  let r3 ← dropLit "])".data r2
  some (cap, r3)

/-- Pattern 3 of column_lineage.py,
`\.n(?:largest|smallest)\([^,]+,\s*["\']([^"\']+)["\']\)`: the greedy
`[^,]+` run ends at the first comma and cannot cross it, so the maximal
run reproduces the regex engine. -/
def matchP3At (l : List Char) : Option (List Char × List Char) := do
  let r1 ←
    match dropLit ".nlargest(".data l with
    | some r => some r
    | Option.none => dropLit ".nsmallest(".data l
  let (arg, r2) := r1.span (fun c => !(c == ','))
  if arg = [] then Option.none
  else
    match r2 with
    | ',' :: r3 =>
        let (_, r4) := r3.span isSpaceCh
        let (cap, r5) ← matchQuotedAt r4
        match r5 with
        | ')' :: r6 => some (cap, r6)
        | _ => Option.none
    | _ => Option.none

/-- Pattern 4 of column_lineage.py, `\.sort_values\(["\']([^"\']+)["\']\)`:
the literal `.sort_values(`, a quoted run, then `)` directly after the
closing quote (so a call with further arguments does not match). -/
def matchP4At (l : List Char) : Option (List Char × List Char) := do
  let r1 ← dropLit ".sort_values(".data l
  let (cap, r2) ← matchQuotedAt r1
  match r2 with
  | ')' :: r3 => some (cap, r3)
  | _ => Option.none

/-- The resample pattern of column_lineage.py (line 39),
`resample\([^\)]+\)\[["\']([^"\']+)["\']\]`. -/
def matchResampleAt (l : List Char) : Option (List Char × List Char) := do
  let r1 ← dropLit "resample(".data l
  let (arg, r2) := r1.span (fun c => !(c == ')'))
  if arg = [] then Option.none
  else
    match r2 with
    | ')' :: '[' :: r3 =>
        let (cap, r4) ← matchQuotedAt r3
        match r4 with
        | ']' :: r5 => some (cap, r5)
        | _ => Option.none
    | _ => Option.none

/-- The groupby-list pattern of column_lineage.py (line 43),
`groupby\(\[([^\]]+)\]\)`: captures the raw text between `groupby([`
and `])` (quotes included); the captures are post-processed by
`matchQuotedAt` scans, mirroring line 46. -/
def matchGroupListAt (l : List Char) : Option (List Char × List Char) := do
  let r1 ← dropLit "groupby([".data l
  let (cap, r2) := r1.span (fun c => !(c == ']'))
  if cap = [] then Option.none
  else
    match r2 with
    | ']' :: ')' :: r3 => some (cap, r3)
    | _ => Option.none

/-- Python `re.findall` driver: scan left to right; at each position try
the match-at-position function; on success emit the capture and resume
after the match (non-overlapping), otherwise advance one character.
Every matcher above consumes at least one character, so `fuel = length`
suffices and the fuel never runs out. -/
def scanGo (m : List Char → Option (List Char × List Char)) :
    Nat → List Char → List (List Char)
  | 0, _ => []
  | _, [] => []
  | Nat.succ fuel, c :: cs =>
      match m (c :: cs) with
      | some (cap, rest) => cap :: scanGo m fuel rest
      | Option.none => scanGo m fuel cs

/-- All captures of one pattern over the text (Python `re.findall`). -/
def scanAll (m : List Char → Option (List Char × List Char))
    (l : List Char) : List (List Char) :=
  scanGo m l.length l

/-- Python `str.strip()` (whitespace from both ends). -/
def pyStrip (s : String) : String :=
  String.mk (((s.data.dropWhile isSpaceCh).reverse.dropWhile isSpaceCh).reverse)

/-- Lines 49-56 of column_lineage.py: strip each match, drop empties and
duplicates, keep first-occurrence order. -/
def dedupNonempty (seen : List String) : List String → List String
  | [] => []
  | s :: ss =>
      if s = "" ∨ seen.contains s then dedupNonempty seen ss
      else s :: dedupNonempty (s :: seen) ss

/-- Embedding of `extract_used_columns` (column_lineage.py, lines 4-58):
run the six findall scans in the order of the source, concatenate the
captures, then strip/deduplicate. -/
def extract_used_columns (code : String) : List String :=
  let cs := code.data
  let all_matches :=
    scanAll matchP1At cs
    ++ scanAll matchP2At cs
    ++ scanAll matchP3At cs
    ++ scanAll matchP4At cs
    ++ scanAll matchResampleAt cs
    ++ (scanAll matchGroupListAt cs).flatMap (fun inner => scanAll matchQuotedAt inner)
  dedupNonempty [] (all_matches.map (fun l => pyStrip (String.mk l)))

/-- A Python value as far as the runner's result shaping inspects it. -/
inductive PyVal where
  | pnum : ℚ → PyVal
  | pstr : String → PyVal
  | pnone : PyVal
deriving DecidableEq

/-- One record of a result table: field name to value. -/
abbrev Row := List (String × PyVal)

/-- A pandas DataFrame as the runner's shaping sees it: its ordered
column list and its rows as records (`to_dict(orient="records")`). -/
structure Frame where
  columns : List String
  rows : List Row
deriving DecidableEq

/-- A pandas Series as the runner's shaping sees it: its optional name
and its index -> value entries (`to_dict()`). -/
structure PySeries where
  sname : Option String
  entries : List (String × PyVal)
deriving DecidableEq

/-- The value bound to `result` by the executed program, as the shaping
code of `run_analysis_code` classifies it (lines 113-126 of
code_runner.py): a DataFrame, a Series, or anything else (recorded with
its Python type name). -/
inductive ExecResultVal where
  | frame : Frame → ExecResultVal
  | series : PySeries → ExecResultVal
  | otherVal : String → ExecResultVal
deriving DecidableEq

/-- The outcome of `exec(code, ...)` (code_runner.py, line 104), which
runs arbitrary pandas code and therefore enters the model as an oracle:
either the program completed, leaving an optional `result` binding
(`completed Option.none` covers both no binding and `result = None`),
or it raised an exception, whose formatted message
(`f"{type(e).__name__}: {str(e)}\n{traceback.format_exc()}"`, line 129)
is carried as a string. -/
inductive ExecOutcome where
  | completed : Option ExecResultVal → ExecOutcome
  | raised : String → ExecOutcome
deriving DecidableEq

/-- The `result_preview` field: records of a DataFrame head, or the
dict of a Series head. -/
inductive Preview where
  | records : List Row → Preview
  | dict : List (String × PyVal) → Preview
deriving DecidableEq

/-- The dictionary returned by `run_analysis_code` (code_runner.py,
lines 136-141). -/
structure RunResult where
  result_preview : Option Preview
  columns : Option (List String)
  stdout : String
  error : Option String
deriving DecidableEq

/-- What `sys.stdout` is bound to: the stream that was installed before
the call (of caller-chosen type `σ`), or an `io.StringIO` capture
buffer with its current contents. -/
inductive OutTarget (σ : Type) where
  | orig : σ → OutTarget σ
  | capture : String → OutTarget σ
deriving DecidableEq

/-- Writing printed text to the installed `sys.stdout` target; only a
capture buffer's contents are tracked by the model. -/
def writeOut {σ : Type} : OutTarget σ → String → OutTarget σ
  | OutTarget.capture s, t => OutTarget.capture (s ++ t)
  | OutTarget.orig x, _ => OutTarget.orig x

/-- The contents of a capture buffer (`stdout_capture.getvalue()`). -/
def contentsOf {σ : Type} : OutTarget σ → String
  | OutTarget.capture s => s
  | OutTarget.orig _ => ""

/-- The interpreter state the runner touches: the current binding of
`sys.stdout`. -/
structure SysState (σ : Type) where
  sys_stdout : OutTarget σ
deriving DecidableEq

/-- Embedding of `run_analysis_code` (code_runner.py, lines 20-141).
The `exec` call itself is abstracted by two oracle inputs: `printed`,
the text the executed program wrote via `print` (which goes to the
`sys.stdout` installed at that moment, i.e. the capture buffer), and
`outcome`, how the execution ended. Everything around the oracle is
embedded from the source: save `old_stdout`, install a fresh capture
buffer, run the code, shape the optional `result` value (DataFrame and
Series previews truncated by `head(50)`, i.e. `List.take 50`; a Series
is labeled by its name or `value`; any other value is reported as an
error), catch an exception into the `error` field, and in the `finally`
block restore `sys.stdout` and read the captured text. The model
returns the result dictionary together with the final interpreter
state. -/
def run_analysis_code {σ : Type} (w : SysState σ) (code : String)
    (printed : String) (outcome : ExecOutcome) : RunResult × SysState σ :=
  let old_stdout := w.sys_stdout
  let afterInstall : SysState σ := { sys_stdout := OutTarget.capture "" }
  let afterExec : SysState σ :=
    { sys_stdout := writeOut afterInstall.sys_stdout printed }
  let stdout_content := contentsOf afterExec.sys_stdout
  let res : RunResult :=
    match outcome with
    | ExecOutcome.raised msg =>
        { result_preview := Option.none, columns := Option.none,
          stdout := stdout_content, error := some msg }
    | ExecOutcome.completed Option.none =>
        { result_preview := Option.none, columns := Option.none,
          stdout := stdout_content, error := Option.none }
    | ExecOutcome.completed (some (ExecResultVal.frame fr)) =>
        { result_preview := some (Preview.records (fr.rows.take 50)),
          columns := some fr.columns,
          stdout := stdout_content, error := Option.none }
    | ExecOutcome.completed (some (ExecResultVal.series s)) =>
        { result_preview := some (Preview.dict (s.entries.take 50)),
          columns := some (match s.sname with
            | some nm => if nm ≠ "" then [nm] else ["value"]
            | Option.none => ["value"]),
          stdout := stdout_content, error := Option.none }
    | ExecOutcome.completed (some (ExecResultVal.otherVal tyname)) =>
        { result_preview := Option.none, columns := Option.none,
          stdout := stdout_content,
          error := some ("Result is not a DataFrame or Series, got " ++ tyname) }
  (res, { sys_stdout := old_stdout })

/-- Number of preview rows (records of a DataFrame preview or entries
of a Series preview) in a runner result. -/
def previewLen : Option Preview → Nat
  | some (Preview.records rs) => rs.length
  | some (Preview.dict es) => es.length
  | Option.none => 0

/-- Model of `pd.DataFrame.resample('M').size()` on a DataFrame whose
index is the `to_datetime(..., errors='coerce')` image of the time
column: each row's index is `some k` (the absolute month number
`year*12 + month` of the parsed date) or `Option.none` for `NaT`
(coercion failed). pandas bins the rows into every calendar month from
the least to the greatest parsed index and counts the rows per bin;
rows with a `NaT` index belong to no bin and are dropped (documented
pandas behavior: `resample`/`groupby` exclude missing keys). With no
parseable row the result is empty. -/
def resample_month_size (idxs : List (Option Int)) : List (Int × Nat) :=
  let ks := idxs.filterMap id
  match ks.min?, ks.max? with
  | some lo, some hi =>
      (List.range (hi - lo + 1).toNat).map (fun j => (lo + j, ks.count (lo + j)))
  | _, _ => []

/-- Execution model of the program emitted by the trend branch of
`generate_analysis_code` for an intent with a time field but neither a
metric nor extra group columns:
`df['tf'] = pd.to_datetime(df['tf'], errors='coerce')` followed by
`df_trend = df.set_index('tf')` and
`result = df_trend.resample('M').size()`. `parse` is the pandas
datetime parser (an oracle: it returns the absolute month number of the
parsed date, or `Option.none` when coercion fails and the value becomes
`NaT`). Rows are assumed to carry the time column (a missing column
raises a `KeyError` that the runner boundary catches, claim C7's
territory). -/
def trend_count_exec (parse : PyVal → Option Int) (time_field : String)
    (rows : List Row) : List (Int × Nat) :=
  resample_month_size
    (rows.map (fun r => ((r.lookup time_field).getD PyVal.pnone) |> parse))

/-- Correctness of the prefix test: `startsWithCh n h` holds exactly
when `h` extends `n`. -/
theorem startsWithCh_iff (n h : List Char) :
    startsWithCh n h = true ↔ ∃ t, h = n ++ t := by
  induction n generalizing h with
  | nil => simp [startsWithCh]
  | cons x xs ih =>
      cases h with
      | nil => simp [startsWithCh]
      | cons y ys =>
          simp only [startsWithCh, Bool.and_eq_true, decide_eq_true_eq, ih]
          constructor
          · rintro ⟨rfl, t, rfl⟩
            exact ⟨t, rfl⟩
          · rintro ⟨t, ht⟩
            injection ht with h1 h2
            exact ⟨h1.symm, t, h2⟩

/-- Correctness of the substring test: `occursIn n h` holds exactly
when `h` decomposes around a contiguous occurrence of `n`. -/
theorem occursIn_iff (n h : List Char) :
    occursIn n h = true ↔ ∃ p t, h = p ++ n ++ t := by
  induction h with
  | nil =>
      simp only [occursIn, List.isEmpty_iff]
      constructor
      · rintro rfl
        exact ⟨[], [], rfl⟩
      · rintro ⟨p, t, ht⟩
        rcases List.append_eq_nil.mp ht.symm with ⟨h1, h2⟩
        exact (List.append_eq_nil.mp h1).2
  | cons c cs ih =>
      simp only [occursIn, Bool.or_eq_true, startsWithCh_iff, ih]
      constructor
      · rintro (⟨t, ht⟩ | ⟨p, t, ht⟩)
        · exact ⟨[], t, by simp [ht]⟩
        · exact ⟨c :: p, t, by simp [ht]⟩
      · rintro ⟨p, t, ht⟩
        cases p with
        | nil => exact Or.inl ⟨t, by simpa using ht⟩
        | cons a p' =>
            injection ht with h1 h2
            exact Or.inr ⟨p', t, h2⟩

/-- A string occurs in any extension of a decomposition around it. -/
theorem occursIn_append_append (p n t : List Char) :
    occursIn n (p ++ n ++ t) = true :=
  (occursIn_iff n _).mpr ⟨p, t, rfl⟩

/-- Occurrence is preserved by prepending text. -/
theorem occursIn_append_left (g : List Char) {n h : List Char}
    (hh : occursIn n h = true) : occursIn n (g ++ h) = true := by
  rcases (occursIn_iff n h).mp hh with ⟨p, t, rfl⟩
  exact (occursIn_iff n _).mpr ⟨g ++ p, t, by simp⟩

/-- Occurrence is preserved by appending text. -/
theorem occursIn_append_right (g : List Char) {n h : List Char}
    (hh : occursIn n h = true) : occursIn n (h ++ g) = true := by
  rcases (occursIn_iff n h).mp hh with ⟨p, t, rfl⟩
  exact (occursIn_iff n _).mpr ⟨p, t ++ g, by simp⟩

/-- Occurrence is transitive. -/
theorem occursIn_trans {a b c : List Char} (hab : occursIn a b = true)
    (hbc : occursIn b c = true) : occursIn a c = true := by
  rcases (occursIn_iff b c).mp hbc with ⟨q, u, rfl⟩
  rcases (occursIn_iff a b).mp hab with ⟨p, t, hb⟩
  refine (occursIn_iff a _).mpr ⟨q ++ p, t ++ u, ?_⟩
  subst hb
  simp

/-- String append acts on the underlying character lists. -/
theorem sdata_append (s t : String) : (s ++ t).data = s.data ++ t.data := rfl

/-- A middle factor is contained in the appended whole. -/
theorem strContains_sandwich (a n b : String) :
    strContains (a ++ n ++ b) n = true := by
  unfold strContains
  rw [sdata_append, sdata_append]
  exact occursIn_append_append a.data n.data b.data

/-- Every string contains itself. -/
theorem strContains_self (s : String) : strContains s s = true :=
  (occursIn_iff s.data s.data).mpr ⟨[], [], by simp⟩

/-- Containment survives prepending. -/
theorem strContains_append_left (s : String) {t n : String}
    (h : strContains t n = true) : strContains (s ++ t) n = true := by
  unfold strContains at *
  rw [sdata_append]
  exact occursIn_append_left s.data h

/-- Containment survives appending. -/
theorem strContains_append_right (t : String) {s n : String}
    (h : strContains s n = true) : strContains (s ++ t) n = true := by
  unfold strContains at *
  rw [sdata_append]
  exact occursIn_append_right t.data h

/-- A line of the joined program text is contained in the whole, and so
is anything it contains. -/
theorem strContains_joinNL_of_mem {s : String} {ls : List String}
    (hs : s ∈ ls) {n : String} (hc : strContains s n = true) :
    strContains (joinNL ls) n = true := by
  induction ls with
  | nil => cases hs
  | cons a ls ih =>
      cases ls with
      | nil =>
          rcases List.mem_singleton.mp hs with rfl
          simpa [joinNL] using hc
      | cons b t =>
          have hj : joinNL (a :: b :: t) = a ++ "\n" ++ joinNL (b :: t) := rfl
          rw [hj]
          rcases List.mem_cons.mp hs with hsa | hmem
          · subst hsa
            exact strContains_append_right _ (strContains_append_right _ hc)
          · exact strContains_append_left _ (ih hmem)

/-- The field loop increments the match counter exactly when it appends
a matched column, so the counter always equals the accumulated column
count. -/
theorem scanFields_count (mr : Bool) (cols : List String) :
    ∀ (fields : List (String × String)) (m : Nat) (mc uc : List String),
      mc.length = m →
      ((scanFields mr cols fields (m, mc, uc)).2.1).length =
        (scanFields mr cols fields (m, mc, uc)).1 := by
  intro fields
  induction fields with
  | nil => intro m mc uc h; simpa [scanFields] using h
  | cons fld rest ih =>
      intro m mc uc h
      obtain ⟨ft, fv⟩ := fld
      by_cases hskip : ft = "metric" ∧ mr = true
      · simpa [scanFields, hskip] using ih m mc uc h
      · cases hfm : _fuzzy_match fv cols with
        | none => simpa [scanFields, hskip, hfm] using ih m mc uc h
        | some col =>
            have : (mc ++ [col]).length = m + 1 := by simp [h]
            simpa [scanFields, hskip, hfm] using ih (m + 1) (mc ++ [col]) (uc ++ [fv]) this

/-- A per-file scan that accepts the file reports a match counter equal
to the number of matched columns it lists. -/
theorem scanFile_count {i : Intent} {fields : List (String × String)}
    {cols : List String} {m : Nat} {mc uc : List String}
    (h : scanFile i fields cols = some (m, mc, uc)) : mc.length = m := by
  cases hm : i.metric with
  | some mv =>
      cases hfm : _fuzzy_match mv cols with
      | none => simp [scanFile, hm, hfm] at h
      | some matched =>
          simp only [scanFile, hm, hfm] at h
          injection h with h
          have := scanFields_count true cols fields 1 [matched] [mv] (by simp)
          rw [h] at this
          simpa using this
  | none =>
      simp only [scanFile, hm] at h
      injection h with h
      have := scanFields_count false cols fields 0 [] [] (by simp)
      rw [h] at this
      simpa using this

/-- A per-file scan accepts the file only if the required metric
fuzzy-matched some column of it. -/
theorem scanFile_metric {i : Intent} {fields : List (String × String)}
    {cols : List String} {mv : String} {r : Nat × List String × List String}
    (hm : i.metric = some mv) (h : scanFile i fields cols = some r) :
    _fuzzy_match mv cols ≠ Option.none := by
  cases hfm : _fuzzy_match mv cols with
  | none => simp [scanFile, hm, hfm] at h
  | some matched => simp

/-- Invariant carried by the best-so-far result while the matcher scans
the index: a selected file comes from the index, its stored score is the
per-file score of its stored scan, and the stored columns are that
scan's. -/
def GoodBest (i : Intent) (fields : List (String × String))
    (index : List (String × List String)) (best : MatchResult) : Prop :=
  ∀ f, best.file_name = some f →
    ∃ cols m mc uc, (f, cols) ∈ index ∧
      scanFile i fields cols = some (m, mc, uc) ∧
      best.score = fileScore fields m ∧
      best.matched_columns = mc ∧ best.used_columns = uc

/-- The matcher loop preserves the best-so-far invariant. -/
theorem matchLoop_good (i : Intent) (fields : List (String × String))
    (index : List (String × List String)) :
    ∀ (l : List (String × List String)) (best : MatchResult),
      (∀ e ∈ l, e ∈ index) → GoodBest i fields index best →
      GoodBest i fields index (matchLoop i fields l best) := by
  intro l
  induction l with
  | nil => intro best _ hgood; simpa [matchLoop] using hgood
  | cons e rest ih =>
      intro best hsub hgood
      obtain ⟨fname, columns⟩ := e
      have hsub' : ∀ e ∈ rest, e ∈ index := fun e he => hsub e (List.mem_cons_of_mem _ he)
      cases hscan : scanFile i fields columns with
      | none => simpa [matchLoop, hscan] using ih best hsub' hgood
      | some r =>
          obtain ⟨m, mc, uc⟩ := r
          by_cases himp : best.score < fileScore fields m
          · have hnew : GoodBest i fields index
                ⟨some fname, fileScore fields m, mc, uc⟩ := by
              intro f hf
              injection hf with hf
              subst hf
              exact ⟨columns, m, mc, uc,
                hsub _ (List.mem_cons_self _ _), hscan, rfl, rfl, rfl⟩
            simpa [matchLoop, hscan, himp] using ih _ hsub' hnew
          · simpa [matchLoop, hscan, himp] using ih best hsub' hgood

/-- When every file of the scanned list is rejected, the loop keeps the
best-so-far result unchanged. -/
theorem matchLoop_all_skipped (i : Intent) (fields : List (String × String)) :
    ∀ (l : List (String × List String)) (best : MatchResult),
      (∀ e ∈ l, scanFile i fields e.2 = Option.none) →
      matchLoop i fields l best = best := by
  intro l
  induction l with
  | nil => intro best _; rfl
  | cons e rest ih =>
      intro best hall
      obtain ⟨fname, columns⟩ := e
      have h1 : scanFile i fields columns = Option.none :=
        hall _ (List.mem_cons_self _ _)
      have h2 : ∀ e ∈ rest, scanFile i fields e.2 = Option.none :=
        fun e he => hall e (List.mem_cons_of_mem _ he)
      simpa [matchLoop, h1] using ih best h2

/-- The final matcher result satisfies the best-so-far invariant. -/
theorem match_excel_file_good (i : Intent) (index : List (String × List String)) :
    GoodBest i (intentFields i) index (match_excel_file i index) := by
  unfold match_excel_file
  by_cases hf : intentFields i = []
  · simp only [hf, if_pos]
    intro f h
    cases h
  · simp only [hf, if_neg, ite_false]
    refine matchLoop_good i (intentFields i) index index
      ⟨Option.none, 0, [], []⟩ (fun e he => he) ?_
    intro f h
    cases h

/-- A sum intent whose field strings coincide with catalog column
names. -/
def iSum : Intent := ⟨some "sum", some "Sales", ["Product"], Option.none, Option.none⟩

/-- A one-file catalog carrying the `Product` and `Sales` columns. -/
def idxSum : List (String × List String) := [("sales.xlsx", ["Product", "Sales"])]

/-- C4: for an intent carrying none of metric, group-by entries and
time field, the matcher returns score 0.0 and a null dataset without
scanning any dataset (the result is the one computed over the empty
index); otherwise the score of the selected dataset is the number of
matched fields divided by the number of intent fields considered —
metric-if-present counted exactly once, every group-by entry, and
time-field-if-present. -/
theorem C4_matcher_score_formula (i : Intent) (index : List (String × List String)) :
    (intentFields i = [] →
      match_excel_file i index = ⟨Option.none, 0, [], []⟩ ∧
      match_excel_file i index = match_excel_file i []) ∧
    (∀ f, (match_excel_file i index).file_name = some f →
      (match_excel_file i index).score =
        ((match_excel_file i index).matched_columns.length : ℚ) /
          ((intentFields i).length : ℚ)) := by
  constructor
  · intro hf
    constructor
    · simp [match_excel_file, hf]
    · simp [match_excel_file, hf]
  · intro f hf
    by_cases hfe : intentFields i = []
    · exfalso
      have h0 : match_excel_file i index = ⟨Option.none, 0, [], []⟩ := by
        simp [match_excel_file, hfe]
      rw [h0] at hf
      cases hf
    · obtain ⟨cols, m, mc, uc, hmem, hscan, hscore, hmc, huc⟩ :=
        match_excel_file_good i index f hf
      have hcount : mc.length = m := scanFile_count hscan
      have hlen : (intentFields i).length ≠ 0 :=
        fun h => hfe (List.length_eq_zero.mp h)
      rw [hscore, hmc, hcount]
      simp [fileScore, hlen]

/-- Evaluation of the matcher at the concrete sum intent (proved by
simp and norm_num because rational arithmetic does not reduce inside
the kernel's `decide`). -/
theorem match_excel_file_iSum_eval : match_excel_file iSum idxSum =
    ⟨some "sales.xlsx", 1, ["Sales", "Product"], ["Sales", "Product"]⟩ := by
  have hfe : ¬ (intentFields iSum = []) := by decide
  have hif : intentFields iSum = [("metric", "Sales"), ("group_by", "Product")] := by
    decide
  have hscan : scanFile iSum [("metric", "Sales"), ("group_by", "Product")]
      ["Product", "Sales"] =
      some (2, ["Sales", "Product"], ["Sales", "Product"]) := by decide
  unfold match_excel_file
  rw [if_neg hfe]
  unfold idxSum
  simp only [matchLoop, hscan, hif]
  norm_num [fileScore]

/-- Witness for C4: at the concrete sum intent the selected dataset's
score is the matched-column count over the field count (here 2/2). -/
theorem C4_matcher_score_formula_w :
    (match_excel_file iSum idxSum).score =
      ((match_excel_file iSum idxSum).matched_columns.length : ℚ) /
        ((intentFields iSum).length : ℚ) :=
  (C4_matcher_score_formula iSum idxSum).2 "sales.xlsx"
    (by rw [match_excel_file_iSum_eval])

/-- C5: a dataset in which a required metric fuzzy-matches no column
(neither pass of `_fuzzy_match` succeeds) is never the selected one;
and when the metric fuzzy-matches in no dataset of the index, the
matcher selects nothing and scores 0, regardless of the other intent
fields. -/
theorem C5_metric_hard_requirement (i : Intent) (index : List (String × List String))
    (mv : String) (hm : i.metric = some mv) :
    (∀ f, (match_excel_file i index).file_name = some f →
      ∃ cols, (f, cols) ∈ index ∧ _fuzzy_match mv cols ≠ Option.none) ∧
    ((∀ f cols, (f, cols) ∈ index → _fuzzy_match mv cols = Option.none) →
      (match_excel_file i index).file_name = Option.none ∧
      (match_excel_file i index).score = 0) := by
  constructor
  · intro f hf
    obtain ⟨cols, m, mc, uc, hmem, hscan, _, _, _⟩ :=
      match_excel_file_good i index f hf
    exact ⟨cols, hmem, scanFile_metric hm hscan⟩
  · intro hall
    have hskip : ∀ e ∈ index, scanFile i (intentFields i) e.2 = Option.none := by
      intro e he
      obtain ⟨f, cols⟩ := e
      have hfc := hall f cols he
      simp [scanFile, hm, hfc]
    by_cases hfe : intentFields i = []
    · constructor <;> simp [match_excel_file, hfe]
    · have h0 : match_excel_file i index = ⟨Option.none, 0, [], []⟩ := by
        unfold match_excel_file
        rw [if_neg hfe]
        exact matchLoop_all_skipped i (intentFields i) index
          ⟨Option.none, 0, [], []⟩ hskip
      rw [h0]
      exact ⟨rfl, rfl⟩

/-- A sum intent whose metric `Zzz` appears in no dataset. -/
def iNoMetric : Intent := ⟨some "sum", some "Zzz", ["Product"], Option.none, Option.none⟩

/-- A top-n intent whose model-supplied metric string carries a Python
statement; its normalized form contains the column `x`, so the matcher
accepts it by substring match. -/
def iInj : Intent :=
  ⟨some "topn", some "x'); import os; ('", [], Option.none, Option.none⟩

/-- A one-file catalog whose single column is `x`. -/
def idxInj : List (String × List String) := [("data.xlsx", ["x"])]

/-- Evaluation of the matcher at the injection intent: the dataset is
selected with full score. -/
theorem match_excel_file_iInj_eval : match_excel_file iInj idxInj =
    ⟨some "data.xlsx", 1, ["x"], ["x'); import os; ('"]⟩ := by
  have hfe : ¬ (intentFields iInj = []) := by decide
  have hif : intentFields iInj = [("metric", "x'); import os; ('")] := by decide
  have hscan : scanFile iInj [("metric", "x'); import os; ('")] ["x"] =
      some (1, ["x"], ["x'); import os; ('"]) := by decide
  unfold match_excel_file
  rw [if_neg hfe]
  unfold idxInj
  simp only [matchLoop, hscan, hif]
  norm_num [fileScore]

/-- C1 counterexample: the artifact the pipeline hands to the execution
engine is not inert data — for this intent the matcher selects the
dataset, and the program text that `run_analysis_code` will `exec`
contains the statement `import os` copied verbatim from the
model-influenced metric string. -/
theorem C1_counterexample :
    (match_excel_file iInj idxInj).file_name = some "data.xlsx" ∧
    strContains (pipeline_code iInj idxInj) "import os" = true := by
  constructor
  · rw [match_excel_file_iInj_eval]
  · have hp : pipeline_code iInj idxInj =
        generate_analysis_code (pathJoin DATA_DIR "data.xlsx") iInj := by
      simp only [pipeline_code, match_excel_file_iInj_eval]
    rw [hp]
    decide

/-- C1 as the code actually behaves: the analysis specification that
crosses the compiler/engine boundary is a Python source string, and for
any top-n intent with a truthy metric the metric text (user- or
model-influenced) is embedded verbatim in that string, which
`run_analysis_code` evaluates with `exec`. -/
theorem C1_amended_boundary_carries_source (fp : String) (i : Intent) (m : String)
    (ht : i.analysis_type = some "topn") (hm : i.metric = some m) (hne : m ≠ "") :
    strContains (generate_analysis_code fp i) m = true := by
  have htail : generate_analysis_code fp i =
      joinNL (header_lines fp ++ topn_lines i.metric i.top_n) := by
    unfold generate_analysis_code
    rw [ht]
    rfl
  have htr : truthyStr (some m) = true := by
    simp [truthyStr, hne]
  have hlines : topn_lines (some m) i.top_n =
      ["# Sort by " ++ m ++ " descending and take top "
         ++ toString (topn_effective_n i.top_n),
       "result = df.nlargest(" ++ toString (topn_effective_n i.top_n)
         ++ ", '" ++ m ++ "')"] := by
    unfold topn_lines
    rw [htr]
    simp
  rw [htail, hm, hlines]
  exact strContains_joinNL_of_mem
    (s := "result = df.nlargest(" ++ toString (topn_effective_n i.top_n)
      ++ ", '" ++ m ++ "')")
    (by simp) (strContains_sandwich _ m "')")

/-- Witness for the amended C1 at the injection intent. -/
theorem C1_amended_boundary_carries_source_w :
    strContains (generate_analysis_code "data/data.xlsx" iInj)
      "x'); import os; ('" = true :=
  C1_amended_boundary_carries_source "data/data.xlsx" iInj
    "x'); import os; ('" rfl rfl (by decide)

/-- A sum intent whose group-by string `prodcat` differs from the
catalog column `Prod Cat` it fuzzy-matches. -/
def iFuzzy : Intent := ⟨some "sum", some "Sales", ["prodcat"], Option.none, Option.none⟩

/-- A one-file catalog with columns `Prod Cat` and `Sales`. -/
def idxFuzzy : List (String × List String) := [("f.xlsx", ["Prod Cat", "Sales"])]

/-- Evaluation of the matcher at the fuzzy intent: both fields match
and the matched catalog names are recorded. -/
theorem match_excel_file_iFuzzy_eval : match_excel_file iFuzzy idxFuzzy =
    ⟨some "f.xlsx", 1, ["Sales", "Prod Cat"], ["Sales", "prodcat"]⟩ := by
  have hfe : ¬ (intentFields iFuzzy = []) := by decide
  have hif : intentFields iFuzzy = [("metric", "Sales"), ("group_by", "prodcat")] := by
    decide
  have hscan : scanFile iFuzzy [("metric", "Sales"), ("group_by", "prodcat")]
      ["Prod Cat", "Sales"] =
      some (2, ["Sales", "Prod Cat"], ["Sales", "prodcat"]) := by decide
  unfold match_excel_file
  rw [if_neg hfe]
  unfold idxFuzzy
  simp only [matchLoop, hscan, hif]
  norm_num [fileScore]

set_option maxRecDepth 40000 in
/-- C2 counterexample: the matcher resolves `prodcat` to the real
catalog column `Prod Cat`, but the compiled program carries the
original intent string `prodcat` and never mentions `Prod Cat` — the
plan does not carry the matched catalog names. -/
theorem C2_counterexample :
    (match_excel_file iFuzzy idxFuzzy).matched_columns = ["Sales", "Prod Cat"] ∧
    strContains (pipeline_code iFuzzy idxFuzzy) "'prodcat'" = true ∧
    strContains (pipeline_code iFuzzy idxFuzzy) "Prod Cat" = false := by
  have hp : pipeline_code iFuzzy idxFuzzy =
      generate_analysis_code (pathJoin DATA_DIR "f.xlsx") iFuzzy := by
    simp only [pipeline_code, match_excel_file_iFuzzy_eval]
  refine ⟨by rw [match_excel_file_iFuzzy_eval], ?_, ?_⟩ <;> rw [hp] <;> decide

/-- The comma-join of a non-empty list starts with its head. -/
theorem joinCommaSpace_cons_data (x : String) (xs : List String) :
    ∃ r, (joinCommaSpace (x :: xs)).data = x.data ++ r := by
  cases xs with
  | nil => exact ⟨[], by simp [joinCommaSpace]⟩
  | cons y ys =>
      exact ⟨(", " ++ joinCommaSpace (y :: ys)).data, by
        simp [joinCommaSpace, sdata_append]⟩

/-- C2 as the code actually behaves: the compiler is handed the
original intent, so for any grouped sum intent the first group-by
intent string appears quoted and verbatim in the generated program,
independently of what the matcher resolved it to. -/
theorem C2_amended_plan_carries_intent_strings (fp : String) (i : Intent)
    (m g : String) (gs : List String)
    (ht : i.analysis_type = some "sum") (hm : i.metric = some m) (hne : m ≠ "")
    (hg : i.group_by = g :: gs) :
    strContains (generate_analysis_code fp i) ("'" ++ g ++ "'") = true := by
  have htail : generate_analysis_code fp i =
      joinNL (header_lines fp ++ sum_avg_lines "sum" i.metric i.group_by) := by
    unfold generate_analysis_code
    rw [ht]
    rfl
  have htr : truthyStr (some m) = true := by
    simp [truthyStr, hne]
  have hlines : sum_avg_lines "sum" (some m) (g :: gs) =
      ["# Group by "
         ++ joinCommaSpace (("'" ++ g ++ "'") :: gs.map (fun c => "'" ++ c ++ "'"))
         ++ " and calculate " ++ "sum" ++ " of " ++ m,
       "result = df.groupby(["
         ++ joinCommaSpace (("'" ++ g ++ "'") :: gs.map (fun c => "'" ++ c ++ "'"))
         ++ "])['" ++ m ++ "']." ++ "sum" ++ "().reset_index()"] := by
    unfold sum_avg_lines
    rw [htr]
    simp
  rw [htail, hm, hg, hlines]
  have hgcs : strContains
      (joinCommaSpace (("'" ++ g ++ "'") :: gs.map (fun c => "'" ++ c ++ "'")))
      ("'" ++ g ++ "'") = true := by
    obtain ⟨r, hr⟩ :=
      joinCommaSpace_cons_data ("'" ++ g ++ "'") (gs.map (fun c => "'" ++ c ++ "'"))
    unfold strContains
    exact (occursIn_iff _ _).mpr ⟨[], r, by simpa using hr⟩
  refine strContains_joinNL_of_mem
    (s := "result = df.groupby(["
      ++ joinCommaSpace (("'" ++ g ++ "'") :: gs.map (fun c => "'" ++ c ++ "'"))
      ++ "])['" ++ m ++ "']." ++ "sum" ++ "().reset_index()")
    (by simp) ?_
  exact strContains_append_right _ (strContains_append_right _
    (strContains_append_right _ (strContains_append_right _
      (strContains_append_right _ (strContains_append_left _ hgcs)))))

/-- Witness for the amended C2 at the fuzzy intent. -/
theorem C2_amended_plan_carries_intent_strings_w :
    strContains (generate_analysis_code "data/f.xlsx" iFuzzy)
      ("'" ++ "prodcat" ++ "'") = true :=
  C2_amended_plan_carries_intent_strings "data/f.xlsx" iFuzzy
    "Sales" "prodcat" [] rfl rfl (by decide) rfl

set_option maxRecDepth 40000 in
/-- C3 counterexample: for the concrete sum intent the matcher consumes
both `Sales` (the metric) and `Product`, but the lineage extracted from
the compiled program is just `["Product"]` — the consumed metric is
missing, so the lineage does not contain exactly the matched columns. -/
theorem C3_counterexample :
    (match_excel_file iSum idxSum).matched_columns = ["Sales", "Product"] ∧
    extract_used_columns (pipeline_code iSum idxSum) = ["Product"] := by
  have hp : pipeline_code iSum idxSum =
      generate_analysis_code (pathJoin DATA_DIR "sales.xlsx") iSum := by
    simp only [pipeline_code, match_excel_file_iSum_eval]
  refine ⟨by rw [match_excel_file_iSum_eval], ?_⟩
  rw [hp]
  decide

set_option maxRecDepth 40000 in
/-- C3 as the code actually behaves: the lineage is the list of strings
the extraction regexes capture from the generated program text — for a
grouped sum that is the group-by intent strings only (the metric
position in `groupby([...])['metric']` matches no pattern), and the
strings are the intent's, not the matched catalog columns. -/
theorem C3_amended_lineage_is_regex_capture :
    extract_used_columns (pipeline_code iSum idxSum) = ["Product"] ∧
    extract_used_columns (pipeline_code iFuzzy idxFuzzy) = ["prodcat"] ∧
    (match_excel_file iFuzzy idxFuzzy).matched_columns = ["Sales", "Prod Cat"] := by
  have hp1 : pipeline_code iSum idxSum =
      generate_analysis_code (pathJoin DATA_DIR "sales.xlsx") iSum := by
    simp only [pipeline_code, match_excel_file_iSum_eval]
  have hp2 : pipeline_code iFuzzy idxFuzzy =
      generate_analysis_code (pathJoin DATA_DIR "f.xlsx") iFuzzy := by
    simp only [pipeline_code, match_excel_file_iFuzzy_eval]
  refine ⟨?_, ?_, by rw [match_excel_file_iFuzzy_eval]⟩
  · rw [hp1]; decide
  · rw [hp2]; decide

/-- Witness for C5: with metric `Zzz` absent from the only dataset, no
dataset is selected although the group-by entry would match. -/
theorem C5_metric_hard_requirement_w :
    (match_excel_file iNoMetric idxSum).file_name = Option.none ∧
    (match_excel_file iNoMetric idxSum).score = 0 :=
  (C5_metric_hard_requirement iNoMetric idxSum "Zzz" rfl).2 (by
    intro f cols h
    simp only [idxSum, List.mem_singleton, Prod.mk.injEq] at h
    obtain ⟨rfl, rfl⟩ := h
    decide)

/-- C6: the runner's preview is capped — whatever the executed plan
produced, the returned preview holds at most 50 entries; and for a
DataFrame result the preview is the first 50 rows of the full result
while the reported columns are those of the full (untruncated) result,
so the cap bounds the response, not the computation. -/
theorem C6_preview_capped_at_50 {σ : Type} (w : SysState σ) (code printed : String)
    (outcome : ExecOutcome) :
    previewLen ((run_analysis_code w code printed outcome).1.result_preview) ≤ 50 ∧
    (∀ fr : Frame,
      outcome = ExecOutcome.completed (some (ExecResultVal.frame fr)) →
      (run_analysis_code w code printed outcome).1.result_preview =
        some (Preview.records (fr.rows.take 50)) ∧
      (run_analysis_code w code printed outcome).1.columns = some fr.columns) := by
  constructor
  · cases outcome with
    | raised msg => simp [run_analysis_code, previewLen]
    | completed r =>
        cases r with
        | none => simp [run_analysis_code, previewLen]
        | some v =>
            cases v with
            | frame fr =>
                simp [run_analysis_code, previewLen]
            | series s =>
                simp [run_analysis_code, previewLen]
            | otherVal t => simp [run_analysis_code, previewLen]
  · rintro fr rfl
    exact ⟨rfl, rfl⟩

/-- A DataFrame with 60 rows, more than the preview cap. -/
def frame60 : Frame :=
  ⟨["v"], (List.range 60).map (fun k => [("v", PyVal.pnum k)])⟩

/-- Witness for C6: executing with a 60-row result yields the first 50
rows as preview and the full frame's columns. -/
theorem C6_preview_capped_at_50_w :
    (run_analysis_code (σ := Unit) ⟨OutTarget.orig ()⟩ "" ""
        (ExecOutcome.completed (some (ExecResultVal.frame frame60)))).1.result_preview =
      some (Preview.records (frame60.rows.take 50)) ∧
    (run_analysis_code (σ := Unit) ⟨OutTarget.orig ()⟩ "" ""
        (ExecOutcome.completed (some (ExecResultVal.frame frame60)))).1.columns =
      some frame60.columns :=
  (C6_preview_capped_at_50 ⟨OutTarget.orig ()⟩ "" ""
    (ExecOutcome.completed (some (ExecResultVal.frame frame60)))).2 frame60 rfl

/-- C7: an exception raised while the engine interprets the program is
caught at the boundary and returned inside the result — the error field
holds the message, the preview and columns fields are null — and the
call, a total function of its inputs, never propagates the exception to
the caller. -/
theorem C7_runtime_failure_contained {σ : Type} (w : SysState σ)
    (code printed msg : String) :
    (run_analysis_code w code printed (ExecOutcome.raised msg)).1 =
      { result_preview := Option.none, columns := Option.none,
        stdout := printed, error := some msg } := rfl

/-- C8 counterexample: `n = top_n if top_n else 10` does not clamp — a
zero `top_n` falls back to 10 (not 1), and a negative `top_n` is used
as is, reaching the generated program as a negative `nlargest` bound. -/
theorem C8_counterexample :
    topn_effective_n (some 0) = 10 ∧
    topn_effective_n (some (-3)) = -3 ∧
    ¬ (1 ≤ topn_effective_n (some (-3))) ∧
    strContains
      (generate_analysis_code "data/f.xlsx"
        ⟨some "topn", some "Sales", [], Option.none, some (-3)⟩)
      "df.nlargest(-3, 'Sales')" = true := by
  refine ⟨rfl, rfl, by decide, by decide⟩

/-- C8 as the code actually behaves: for a top-n intent with truthy
metric the generated program ranks by `nlargest(n, metric)` where
`n = top_n` whenever `top_n` is present and non-zero (negative values
included, unclamped), and `n = 10` when `top_n` is absent or zero. -/
theorem C8_amended_n_rule (fp : String) (i : Intent) (m : String)
    (ht : i.analysis_type = some "topn") (hm : i.metric = some m) (hne : m ≠ "") :
    strContains (generate_analysis_code fp i)
      ("df.nlargest(" ++ toString (topn_effective_n i.top_n) ++ ", '" ++ m ++ "')")
      = true ∧
    (∀ k : Int, i.top_n = some k → k ≠ 0 → topn_effective_n i.top_n = k) ∧
    (i.top_n = Option.none ∨ i.top_n = some 0 → topn_effective_n i.top_n = 10) := by
  refine ⟨?_, ?_, ?_⟩
  · have htail : generate_analysis_code fp i =
        joinNL (header_lines fp ++ topn_lines i.metric i.top_n) := by
      unfold generate_analysis_code
      rw [ht]
      rfl
    have htr : truthyStr (some m) = true := by
      simp [truthyStr, hne]
    have hlines : topn_lines (some m) i.top_n =
        ["# Sort by " ++ m ++ " descending and take top "
           ++ toString (topn_effective_n i.top_n),
         "result = df.nlargest(" ++ toString (topn_effective_n i.top_n)
           ++ ", '" ++ m ++ "')"] := by
      unfold topn_lines
      rw [htr]
      simp
    rw [htail, hm, hlines]
    refine strContains_joinNL_of_mem
      (s := "result = df.nlargest(" ++ toString (topn_effective_n i.top_n)
        ++ ", '" ++ m ++ "')")
      (by simp) ?_
    unfold strContains
    refine (occursIn_iff _ _).mpr ⟨("result = " : String).data, [], ?_⟩
    have hsplit : ("result = df.nlargest(" : String).data =
        ("result = " : String).data ++ ("df.nlargest(" : String).data := by decide
    simp [sdata_append, hsplit]
  · intro k hk hk0
    rw [hk]
    simp [topn_effective_n, hk0]
  · rintro (h | h) <;> rw [h] <;> rfl

/-- A top-n intent with a negative `top_n`. -/
def iTopNeg : Intent := ⟨some "topn", some "Sales", [], Option.none, some (-3)⟩

/-- Witness for the amended C8: at `top_n = -3` the generated program
contains the unclamped bound. -/
theorem C8_amended_n_rule_w :
    strContains (generate_analysis_code "data/f.xlsx" iTopNeg)
      ("df.nlargest(" ++ toString (topn_effective_n iTopNeg.top_n)
        ++ ", '" ++ "Sales" ++ "')") = true :=
  (C8_amended_n_rule "data/f.xlsx" iTopNeg "Sales" rfl rfl (by decide)).1

/-- A datetime-parsing oracle that accepts exactly the string
`2024-01-05` (absolute month 2024*12 + 1). -/
def parseJan2024 : PyVal → Option Int := fun v =>
  match v with
  | PyVal.pstr "2024-01-05" => some 24289
  | _ => Option.none

/-- Two rows: one with a parseable date, one whose date string fails
coercion. -/
def rowsTrend : List Row :=
  [[("Date", PyVal.pstr "2024-01-05"), ("Sales", PyVal.pnum 10)],
   [("Date", PyVal.pstr "not a date"), ("Sales", PyVal.pnum 99)]]

/-- C9 counterexample: executing the generated trend (count) program
over two rows, one of which fails date coercion, yields a single
January-2024 bucket counting one row — the unparseable row appears in
no bucket of the result (it is dropped by the month resampling), and
no `unparseable`/`unknown` bucket exists. -/
theorem C9_counterexample :
    rowsTrend.length = 2 ∧
    trend_count_exec parseJan2024 "Date" rowsTrend = [(24289, 1)] ∧
    ((trend_count_exec parseJan2024 "Date" rowsTrend).map Prod.snd).sum = 1 := by
  refine ⟨rfl, by decide, by decide⟩

/-- The month-resampling only sees the successfully parsed indices. -/
theorem resample_month_size_congr {l l' : List (Option Int)}
    (h : l.filterMap id = l'.filterMap id) :
    resample_month_size l = resample_month_size l' := by
  unfold resample_month_size
  rw [h]

/-- Filtering a list to the elements where `f` succeeds does not change
the collected successes. -/
theorem filterMap_map_filter {α β : Type} (f : α → Option β) (rows : List α) :
    ((rows.filter (fun r => (f r).isSome)).map f).filterMap id =
      (rows.map f).filterMap id := by
  induction rows with
  | nil => rfl
  | cons r rs ih =>
      cases hfr : f r with
      | none => simp [List.filter_cons, hfr, List.filterMap_cons, ih]
      | some b => simp [List.filter_cons, hfr, List.filterMap_cons, ih]

/-- C9 as the code actually behaves: a row whose time value fails
coercion becomes `NaT` and is silently excluded from every month
bucket — deleting all such rows leaves the trend result unchanged (and
execution does not fail on them). -/
theorem C9_amended_unparseable_rows_dropped (parse : PyVal → Option Int)
    (tf : String) (rows : List Row) :
    trend_count_exec parse tf rows =
      trend_count_exec parse tf
        (rows.filter
          (fun r => (parse ((r.lookup tf).getD PyVal.pnone)).isSome)) := by
  unfold trend_count_exec
  exact (resample_month_size_congr
    (filterMap_map_filter (fun r => parse ((r.lookup tf).getD PyVal.pnone)) rows)).symm

/-- C10: whatever the executed program does — finish, leave any result,
or raise — the runner restores `sys.stdout` to its pre-call binding in
its `finally` block, and the text the program printed (which went to
the installed capture buffer) is returned in the result's stdout
field. -/
theorem C10_stdout_restored_and_captured {σ : Type} (w : SysState σ)
    (code printed : String) (outcome : ExecOutcome) :
    (run_analysis_code w code printed outcome).2 = w ∧
    (run_analysis_code w code printed outcome).1.stdout = printed := by
  constructor
  · rfl
  · cases outcome with
    | raised msg => rfl
    | completed r =>
        cases r with
        | none => rfl
        | some v => cases v <;> rfl
